import Mathlib

/-!
Verification development for the nestjs-queues repository: a shared BullMQ
queue carrying named jobs, a mail producer, a worker that dispatches on job
name, and (in the documented DLQ variant) dead-letter escalation on handler
failure.

JavaScript objects that appear as job payloads are embedded as association
lists of string fields; JavaScript property access `obj.field` becomes a
lookup returning an `Option`, with `none` standing for `undefined`.
Thrown JavaScript errors are embedded with `Except`; a function that the
source wraps in `try`/`catch` is total and returns `Except.ok` on every
input, while a function that can `throw` returns `Except.error`.
-/

/-- A JavaScript error value: only its `message` matters to this code. -/
structure JsError where
  message : String
deriving Repr, DecidableEq

/-- A job payload: a JavaScript object with string-valued fields, embedded
as an association list (first binding of a key wins, as in object literals
read left to right with distinct keys). -/
def Payload : Type := List (String × String)

instance : DecidableEq Payload := by
  unfold Payload
  infer_instance

instance : Repr Payload := by
  unfold Payload
  infer_instance

/-- JavaScript property access `obj.k` on a payload object: `none` models
`undefined` when the field is absent. -/
def jsGet (o : Payload) (k : String) : Option String :=
  match o.find? (fun p => p.1 = k) with
  | some p => some p.2
  | none => none

/-- How a possibly-`undefined` value prints inside a template literal:
`undefined` interpolates as the string "undefined". -/
def jsShow : Option String → String
  | some s => s
  | none => "undefined"

/-- A JavaScript number as produced by `parseInt`: either an integer or
`NaN`. -/
inductive JSNumber where
  | int (n : Int)
  | nan
deriving Repr, DecidableEq

/-- A decimal digit character. -/
def isDecimalDigit (c : Char) : Prop := '0' ≤ c ∧ c ≤ '9'

instance (c : Char) : Decidable (isDecimalDigit c) := by
  unfold isDecimalDigit
  infer_instance

/-- Value of a decimal digit character, `none` on a non-digit. -/
def digitVal (c : Char) : Option Nat :=
  if isDecimalDigit c then some (c.toNat - '0'.toNat) else none

/-- Consume the longest leading run of decimal digits, accumulating their
value; the accumulator is `none` until at least one digit has been seen,
mirroring `parseInt` returning `NaN` when no digit follows the sign. -/
def parseDigits : List Char → Option Nat → Option Nat
  | [], acc => acc
  | c :: rest, acc =>
    match digitVal c with
    | some d => parseDigits rest (some (acc.getD 0 * 10 + d))
    | none => acc

/-- ECMAScript `parseInt(s, 10)`: skip leading whitespace, read an optional
sign, then the longest prefix of decimal digits; `NaN` when that prefix is
empty, otherwise the signed value (trailing garbage ignored). -/
def jsParseInt10 (s : String) : JSNumber :=
  match s.toList.dropWhile Char.isWhitespace with
  | [] => .nan
  | c :: rest =>
    if c = '-' then
      match parseDigits rest none with
      | some n => .int (-(n : Int))
      | none => .nan
    else if c = '+' then
      match parseDigits rest none with
      | some n => .int (n : Int)
      | none => .nan
    else
      match parseDigits (c :: rest) none with
      | some n => .int (n : Int)
      | none => .nan

/-- The default job options object built by both
`src/config/bull-jobs-options.config.ts` (`getDefaultJobOptions`) and the
inline literal in `src/modules/queue/queue.module.ts`. -/
structure JobsOptions where
  removeOnComplete : Bool
  removeOnFail : JSNumber
deriving Repr, DecidableEq

/-- `getDefaultJobOptions` from `src/config/bull-jobs-options.config.ts`:
`removeOnComplete: true`, `removeOnFail: parseInt(process.env.BULL_REMOVE_FAILED ?? '100', 10)`.
The environment variable is passed in as `Option String` (`none` = unset). -/
def getDefaultJobOptions (bullRemoveFailedEnv : Option String) : JobsOptions :=
  { removeOnComplete := true
    removeOnFail := jsParseInt10 (bullRemoveFailedEnv.getD "100") }

/-- `MailJobNames.SEND` from
`src/modules/mail/constants/mail-job.constant.ts`. -/
def MailJobNames.SEND : String := "mail.send"

/-- `MailJobNames.NOTIFY` from
`src/modules/mail/constants/mail-job.constant.ts`. -/
def MailJobNames.NOTIFY : String := "mail.notify"

/-- A job as enqueued on a queue: a name and a payload. -/
structure EnqueuedJob where
  name : String
  data : Payload
deriving Repr, DecidableEq

/-- `MailProducer.sendMail` from `src/modules/mail/mail.producer.ts`: a
single `appQueue.add(MailJobNames.SEND, mailData)` call, embedded as the
list of jobs the call appends to the shared queue. -/
def MailProducer.sendMail (mailData : Payload) : List EnqueuedJob :=
  [{ name := MailJobNames.SEND, data := mailData }]

/-- A claimed job as the base worker sees it: name and payload. -/
structure BaseJob where
  name : String
  data : Payload
deriving Repr, DecidableEq

/-- Observable actions of the base worker while processing one job. -/
inductive BaseEvent where
  | handlerInvoked (data : Payload)
  | logLine (msg : String)
  | consoleError (msg : String)
deriving Repr, DecidableEq

/-- The value `process` returns on its normal paths: `return {}` inside the
`try`, or the implicit `undefined` after the `catch` block. -/
inductive BaseResult where
  | emptyObj
  | jsUndefined
deriving Repr, DecidableEq

/-- `MailProcessor.sendMail` from the base processor
(`src/unnamed/part_001`): awaits a simulated delay and logs; it never
throws. Embedded as the always-succeeding handler outcome. -/
def MailProcessor.sendMail (_data : Payload) : Except JsError Unit :=
  .ok ()

/-- `MailProcessor.process` from the base processor (`src/unnamed/part_001`).
The body of the `try` block: switch on `job.name`; on `mail.send` invoke the
handler (whose outcome is the `handler` argument applied to the payload), on
any other name log the mismatch line. Returns the emitted events paired with
the outcome of the block. -/
def MailProcessor.processBody (handler : Payload → Except JsError Unit)
    (job : BaseJob) : List BaseEvent × Except JsError Unit :=
  if job.name = MailJobNames.SEND then
    ([.handlerInvoked job.data], handler job.data)
  else
    ([.logLine ("Mail failed dispatched to: " ++ jsShow (jsGet job.data "to")
        ++ "; No Job Matched.")], .ok ())

/-- `MailProcessor.process` from the base processor (`src/unnamed/part_001`):
the `try`/`catch` wrapper. On the non-throwing path it returns `{}`; when the
body throws, the error is logged with `console.error` and the method falls
off the end, returning `undefined`. The outer `Except.ok` records that the
call itself returned normally rather than raising; an `Except.error` result
would mean the attempt is reported failed to the broker. -/
def MailProcessor.process (handler : Payload → Except JsError Unit)
    (job : BaseJob) : Except JsError (BaseResult × List BaseEvent) :=
  match MailProcessor.processBody handler job with
  | (evs, .ok _) => .ok (.emptyObj, evs)
  | (evs, .error e) => .ok (.jsUndefined, evs ++ [.consoleError e.message])

/-- The payloads the worker passed to the registered handler, in order. -/
def handlerCalls (evs : List BaseEvent) : List Payload :=
  evs.filterMap (fun e =>
    match e with
    | .handlerInvoked d => some d
    | _ => none)

/-- `MailJobNames.MAIL_SEND` from the DLQ guide's
`constants/job-names.constant.ts` (`docs/dql-guide.md`). -/
def MailJobNames.MAIL_SEND : String := "mail.send"

/-- `MailDLQ` from the DLQ guide's `constants/job-names.constant.ts`. -/
def MailDLQ : String := "mail-dlq"

/-- Default job options of the primary `mail` queue registered in the DLQ
guide's `MailQueueModule` (`docs/dql-guide.md`): `attempts: 3`,
`backoff: 5000`, `removeOnComplete: true`, `removeOnFail: true`. -/
structure DlqGuideJobOptions where
  attempts : Nat
  backoff : Nat
  removeOnComplete : Bool
  removeOnFail : Bool
deriving Repr, DecidableEq

/-- The literal options object of the primary `mail` queue in
`MailQueueModule`. -/
def mailQueueDefaultJobOptions : DlqGuideJobOptions :=
  { attempts := 3, backoff := 5000, removeOnComplete := true,
    removeOnFail := true }

/-- The options object passed to `dlqQueue.add` in the DLQ guide's
`MailProcessor.process`: `attempts: 0, failedReason: err.message`. These are
job options/metadata of the DLQ job, distinct from its payload. -/
structure DlqAddOpts where
  attempts : Nat
  failedReason : String
deriving Repr, DecidableEq

/-- One `dlqQueue.add(name, data, opts)` call: the DLQ job's name, its
payload, and its options. -/
structure DlqRecord where
  name : String
  data : Payload
  opts : DlqAddOpts
deriving Repr, DecidableEq

/-- A claimed job as the DLQ-variant worker sees it. -/
structure DlqJob where
  id : String
  name : String
  data : Payload
deriving Repr, DecidableEq

/-- Observable actions of the DLQ-variant worker while processing one job,
in program order; `raised` records the final `throw err` that reports the
attempt failed to the broker, so any event before it in the trace happened
before the attempt was reported failed. -/
inductive DlqEvent where
  | consoleLog (msg : String)
  | consoleError (msg : String)
  | dlqEnqueued (rec : DlqRecord)
  | raised (err : JsError)
deriving Repr, DecidableEq

/-- `MailProcessor.process` of the DLQ variant (`docs/dql-guide.md`,
`queue/mail-processor.service.ts`). The simulated send inside the `try`
(a `console.log` followed by `if (Math.random() < 0.3) throw ...`) is
embedded with its random outcome as the `sendOutcome` parameter: `.ok ()`
when no failure triggers, `.error err` when the send throws `err` (the
source's literal error is `Error('Random mail failure')`; the escalation
logic never inspects the error, only forwards `err.message`). On failure the
`catch` logs, enqueues one DLQ record with `attempts: 0` and
`failedReason: err.message`, then re-throws `err`; the trace lists these in
program order and the returned `Except.error err` is the re-raise. Jobs with
any other name fall through the `if` and return `undefined` normally. -/
def DlqMailProcessor.process (sendOutcome : Except JsError Unit)
    (job : DlqJob) : List DlqEvent × Except JsError Unit :=
  if job.name = MailJobNames.MAIL_SEND then
    let sendLog : DlqEvent := .consoleLog ("Sending mail to "
      ++ jsShow (jsGet job.data "to") ++ " with subject \""
      ++ jsShow (jsGet job.data "subject") ++ "\"")
    match sendOutcome with
    | .ok _ => ([sendLog], .ok ())
    | .error err =>
      ([sendLog,
        .consoleError ("Job failed: " ++ job.id ++ " " ++ err.message),
        .dlqEnqueued { name := job.name, data := job.data,
                       opts := { attempts := 0, failedReason := err.message } },
        .raised err],
       .error err)
  else
    ([], .ok ())

/-- The DLQ records enqueued during one processing attempt, in order. -/
def dlqRecordsOf (evs : List DlqEvent) : List DlqRecord :=
  evs.filterMap (fun e =>
    match e with
    | .dlqEnqueued r => some r
    | _ => none)

/-- Modelled from the spec: the broker's native retry machinery is not part
of this repository (BullMQ is an external collaborator); the spec describes
it by "broker-native retry applies to the original queue, governed by
`attempts` and `backoff` (fixed delay)". A retry policy is the pair of those
two knobs. -/
structure RetryConfig where
  attempts : Nat
  backoff : Nat
deriving Repr, DecidableEq

/-- The retry policy the DLQ guide's `MailQueueModule` configures on the
primary `mail` queue. -/
def mailRetryConfig : RetryConfig :=
  { attempts := mailQueueDefaultJobOptions.attempts,
    backoff := mailQueueDefaultJobOptions.backoff }

/-- Broker-side status of one job under retry. -/
inductive JobStatus where
  | waiting
  | completed
  | failed
deriving Repr, DecidableEq

/-- Modelled from the spec: broker-side state of one job — the times at
which its attempts started (in order) and its current status. -/
structure RetryState where
  attemptTimes : List Nat
  status : JobStatus
deriving Repr, DecidableEq

/-- Modelled from the spec: the earliest time the next attempt may start: immediately for a fresh
job, and `backoff` after the previous attempt for a retry ("each attempt
separated by the fixed backoff delay"). -/
def readyTime (cfg : RetryConfig) (s : RetryState) : Nat :=
  match s.attemptTimes.getLast? with
  | none => 0
  | some t => t + cfg.backoff

/-- Modelled from the spec: one broker step on a waiting job with attempt
budget remaining, started no earlier than the backoff allows. A successful
attempt completes the job; a failed attempt re-enters the waiting (retry)
cycle unless it exhausted the `attempts` budget, in which case the job is
finally failed. -/
inductive RetryStep (cfg : RetryConfig) : RetryState → RetryState → Prop where
  | succeed (s : RetryState) (t : Nat) (hw : s.status = .waiting)
      (hb : s.attemptTimes.length < cfg.attempts) (ht : readyTime cfg s ≤ t) :
      RetryStep cfg s { attemptTimes := s.attemptTimes ++ [t],
                        status := .completed }
  | fail (s : RetryState) (t : Nat) (hw : s.status = .waiting)
      (hb : s.attemptTimes.length < cfg.attempts) (ht : readyTime cfg s ≤ t) :
      RetryStep cfg s { attemptTimes := s.attemptTimes ++ [t],
                        status := if s.attemptTimes.length + 1 = cfg.attempts
                                  then .failed else .waiting }

/-- Modelled from the spec: a freshly enqueued job — no attempts yet, waiting. -/
def initialRetryState : RetryState :=
  { attemptTimes := [], status := .waiting }

/-- Modelled from the spec: the states the broker can drive a fresh job into under the given policy. -/
def RetryReachable (cfg : RetryConfig) (s : RetryState) : Prop :=
  Relation.ReflTransGen (RetryStep cfg) initialRetryState s

/-- Consecutive attempts are separated by at least `b`. -/
def attemptsSeparated (b : Nat) (times : List Nat) : Prop :=
  List.Chain' (fun a c => a + b ≤ c) times

/-- `s` is a plain decimal numeral (nonempty, all digits) denoting `n`. -/
def decimalRep (n : Nat) (s : String) : Prop :=
  s.toList ≠ [] ∧ (∀ c ∈ s.toList, isDecimalDigit c) ∧
  s.toList.foldl (fun acc c => acc * 10 + (c.toNat - Char.toNat '0')) 0 = n

lemma isDecimalDigit_not_whitespace {c : Char} (h : isDecimalDigit c) :
    c.isWhitespace = false := by
  obtain ⟨h1, _⟩ := h
  by_contra hw
  rw [Bool.not_eq_false, Char.isWhitespace] at hw
  simp only [Bool.or_eq_true, decide_eq_true_eq] at hw
  rcases hw with ((h | h) | h) | h <;> subst h <;> revert h1 <;> decide

lemma parseDigits_some (l : List Char) (a : Nat)
    (h : ∀ c ∈ l, isDecimalDigit c) :
    parseDigits l (some a) =
      some (l.foldl (fun acc c => acc * 10 + (c.toNat - Char.toNat '0')) a) := by
  induction l generalizing a with
  | nil => rfl
  | cons c rest ih =>
    have hc : isDecimalDigit c := h c (List.mem_cons_self c rest)
    simp only [parseDigits, digitVal, if_pos hc, Option.getD_some, List.foldl_cons]
    exact ih (a * 10 + (c.toNat - Char.toNat '0'))
      (fun d hd => h d (List.mem_cons_of_mem c hd))

lemma jsParseInt10_decimalRep {s : String} {n : Nat} (h : decimalRep n s) :
    jsParseInt10 s = .int n := by
  obtain ⟨hne, hdig, hval⟩ := h
  unfold jsParseInt10
  cases hl : s.toList with
  | nil => exact absurd hl hne
  | cons c rest =>
    have hc : isDecimalDigit c := by
      apply hdig
      rw [hl]
      exact List.mem_cons_self c rest
    have hcm : c ≠ '-' := by
      intro hcm
      rw [hcm] at hc
      exact absurd hc (by decide)
    have hcp : c ≠ '+' := by
      intro hcp
      rw [hcp] at hc
      exact absurd hc (by decide)
    have hdrop : List.dropWhile Char.isWhitespace (c :: rest) = c :: rest := by
      rw [List.dropWhile_cons, isDecimalDigit_not_whitespace hc]
      simp
    rw [hdrop]
    simp only [if_neg hcm, if_neg hcp]
    have hstep : parseDigits (c :: rest) none = parseDigits rest
        (some (c.toNat - Char.toNat '0')) := by
      simp [parseDigits, digitVal, if_pos hc]
    rw [hstep, parseDigits_some rest (c.toNat - Char.toNat '0')
      (fun d hd => hdig d (by rw [hl]; exact List.mem_cons_of_mem c hd))]
    rw [hl, List.foldl_cons] at hval
    simp only [Nat.zero_mul, Nat.zero_add] at hval
    rw [hval]

/-- C7: the shared queue's default job options set remove-on-complete to
`true` and remove-on-fail to the integer value of the `BULL_REMOVE_FAILED`
environment variable (a decimal numeral parses to its value), with the
literal default `100` used when that variable is unset. -/
theorem default_job_options_spec :
    (getDefaultJobOptions none).removeOnComplete = true ∧
    (getDefaultJobOptions none).removeOnFail = .int 100 ∧
    ∀ s n, decimalRep n s →
      (getDefaultJobOptions (some s)).removeOnComplete = true ∧
      (getDefaultJobOptions (some s)).removeOnFail = .int n := by
  refine ⟨rfl, by decide, fun s n h => ⟨rfl, ?_⟩⟩
  show jsParseInt10 s = .int n
  exact jsParseInt10_decimalRep h

/-- Witness for C7 at the concrete environment value "42". -/
theorem default_job_options_spec_witness :
    (getDefaultJobOptions (some "42")).removeOnComplete = true ∧
    (getDefaultJobOptions (some "42")).removeOnFail = .int 42 :=
  default_job_options_spec.2.2 "42" 42 ⟨by decide, by decide, by decide⟩

/-- C10: when `BULL_REMOVE_FAILED` is set to a value `parseInt` cannot read
a number from, remove-on-fail becomes `NaN`; the fallback to `100` applies
only when the variable is absent. -/
theorem invalid_remove_failed_env_nan (s : String)
    (h : jsParseInt10 s = .nan) :
    (getDefaultJobOptions (some s)).removeOnFail = .nan ∧
    (getDefaultJobOptions none).removeOnFail = .int 100 :=
  ⟨h, by decide⟩

/-- Witness for C10 at the concrete environment value "abc". -/
theorem invalid_remove_failed_env_nan_witness :
    (getDefaultJobOptions (some "abc")).removeOnFail = .nan ∧
    (getDefaultJobOptions none).removeOnFail = .int 100 :=
  invalid_remove_failed_env_nan "abc" (by decide)

/-- Concrete payload used by witnesses. -/
def witnessPayload : Payload :=
  [("to", "a@b.com"), ("sub", "x"), ("body", "y")]

/-- A handler whose outcome is the thrown error `Error('boom')`. -/
def boomHandler : Payload → Except JsError Unit :=
  fun _ => .error { message := "boom" }

/-- A concrete `mail.send` job for the base worker. -/
def witnessSendJob : BaseJob :=
  { name := "mail.send", data := witnessPayload }

/-- A concrete job for the base worker whose name matches no handler. -/
def witnessNotifyJob : BaseJob :=
  { name := "mail.notify", data := witnessPayload }

lemma base_process_ok_case (handler : Payload → Except JsError Unit)
    (job : BaseJob) (u : Unit) (hname : job.name = MailJobNames.SEND)
    (hout : handler job.data = .ok u) :
    MailProcessor.process handler job =
      .ok (.emptyObj, [.handlerInvoked job.data]) := by
  simp [MailProcessor.process, MailProcessor.processBody, hname, hout]

lemma base_process_error_case (handler : Payload → Except JsError Unit)
    (job : BaseJob) (e : JsError) (hname : job.name = MailJobNames.SEND)
    (hout : handler job.data = .error e) :
    MailProcessor.process handler job =
      .ok (.jsUndefined,
        [.handlerInvoked job.data, .consoleError e.message]) := by
  simp [MailProcessor.process, MailProcessor.processBody, hname, hout]

/-- C2: in the base variant, when the handler for a `mail.send` job throws,
`process` catches the error, logs it via `console.error`, and still returns
normally (`Except.ok`) with the `undefined` result — the failure is never
propagated to the broker's retry system. -/
theorem base_handler_failure_swallowed
    (handler : Payload → Except JsError Unit) (job : BaseJob) (e : JsError)
    (hname : job.name = MailJobNames.SEND)
    (hthrow : handler job.data = .error e) :
    MailProcessor.process handler job =
      .ok (.jsUndefined,
        [.handlerInvoked job.data, .consoleError e.message]) :=
  base_process_error_case handler job e hname hthrow

/-- Witness for C2: the handler throws `Error('boom')` on a concrete
`mail.send` job. -/
theorem base_handler_failure_swallowed_witness :
    MailProcessor.process boomHandler witnessSendJob =
      .ok (.jsUndefined,
        [.handlerInvoked witnessSendJob.data, .consoleError "boom"]) :=
  base_handler_failure_swallowed boomHandler witnessSendJob
    { message := "boom" } rfl rfl

/-- C8: the base variant's `process` is total: for every job and every
handler outcome (including a thrown error) it returns normally
(`Except.ok`), and the result is the caught-error `undefined` exactly when
the job was a `mail.send` job whose handler threw; otherwise it is the
empty object. -/
theorem base_process_total (handler : Payload → Except JsError Unit)
    (job : BaseJob) :
    ∃ res evs, MailProcessor.process handler job = .ok (res, evs) ∧
      (res = .jsUndefined ↔
        job.name = MailJobNames.SEND ∧ ∃ e, handler job.data = .error e) ∧
      (res = .emptyObj ↔
        ¬(job.name = MailJobNames.SEND ∧ ∃ e, handler job.data = .error e)) := by
  by_cases hname : job.name = MailJobNames.SEND
  · cases hout : handler job.data with
    | ok u =>
      refine ⟨.emptyObj, [.handlerInvoked job.data], ?_, ?_, ?_⟩
      · simp [MailProcessor.process, MailProcessor.processBody, hname, hout]
      · simp [hout]
      · simp [hout, hname]
    | error e =>
      refine ⟨.jsUndefined,
        [.handlerInvoked job.data, .consoleError e.message], ?_, ?_, ?_⟩
      · simp [MailProcessor.process, MailProcessor.processBody, hname, hout]
      · simp [hout, hname]
      · simp [hout, hname]
  · refine ⟨.emptyObj, [.logLine ("Mail failed dispatched to: "
      ++ jsShow (jsGet job.data "to") ++ "; No Job Matched.")], ?_, ?_, ?_⟩
    · simp [MailProcessor.process, MailProcessor.processBody, hname]
    · simp [hname]
    · simp [hname]

/-- C4: in the base variant, a claimed job whose name matches no registered
handler invokes no handler; the mismatch is logged and `process` returns
normally with the empty object, so the job is acknowledged as completed. -/
theorem base_unmatched_job_completes
    (handler : Payload → Except JsError Unit) (job : BaseJob)
    (hname : job.name ≠ MailJobNames.SEND) :
    MailProcessor.process handler job =
      .ok (.emptyObj, [.logLine ("Mail failed dispatched to: "
        ++ jsShow (jsGet job.data "to") ++ "; No Job Matched.")]) ∧
    ∀ r evs, MailProcessor.process handler job = .ok (r, evs) →
      handlerCalls evs = [] := by
  have hproc : MailProcessor.process handler job =
      .ok (.emptyObj, [.logLine ("Mail failed dispatched to: "
        ++ jsShow (jsGet job.data "to") ++ "; No Job Matched.")]) := by
    simp [MailProcessor.process, MailProcessor.processBody, hname]
  refine ⟨hproc, fun r evs h => ?_⟩
  rw [hproc] at h
  injection h with h
  injection h with h1 h2
  rw [← h2]
  rfl

/-- Witness for C4: a concrete `mail.notify` job. -/
theorem base_unmatched_job_completes_witness :
    MailProcessor.process MailProcessor.sendMail witnessNotifyJob =
      .ok (.emptyObj, [.logLine ("Mail failed dispatched to: "
        ++ jsShow (jsGet witnessNotifyJob.data "to") ++ "; No Job Matched.")]) ∧
    ∀ r evs, MailProcessor.process MailProcessor.sendMail witnessNotifyJob =
        .ok (r, evs) → handlerCalls evs = [] :=
  base_unmatched_job_completes MailProcessor.sendMail witnessNotifyJob
    (by decide)

/-- C5: the producer's `sendMail` enqueues exactly one job, named
`mail.send`, with the payload passed through unchanged; and on every
delivery attempt of a `mail.send` job, the base worker invokes the
registered handler exactly once, with exactly the job's payload. -/
theorem mail_send_dispatch (mailData : Payload)
    (handler : Payload → Except JsError Unit) (job : BaseJob)
    (hname : job.name = MailJobNames.SEND) :
    MailProducer.sendMail mailData =
      [{ name := MailJobNames.SEND, data := mailData }] ∧
    ∀ r evs, MailProcessor.process handler job = .ok (r, evs) →
      handlerCalls evs = [job.data] := by
  refine ⟨rfl, fun r evs h => ?_⟩
  cases hout : handler job.data with
  | ok u =>
    rw [base_process_ok_case handler job u hname hout] at h
    injection h with h
    injection h with h1 h2
    rw [← h2]
    rfl
  | error e =>
    rw [base_process_error_case handler job e hname hout] at h
    injection h with h
    injection h with h1 h2
    rw [← h2]
    rfl

/-- Witness for C5 at a concrete payload and a concrete `mail.send` job. -/
theorem mail_send_dispatch_witness :
    MailProducer.sendMail witnessPayload =
      [{ name := MailJobNames.SEND, data := witnessPayload }] ∧
    ∀ r evs, MailProcessor.process MailProcessor.sendMail witnessSendJob =
        .ok (r, evs) → handlerCalls evs = [witnessSendJob.data] :=
  mail_send_dispatch witnessPayload MailProcessor.sendMail witnessSendJob rfl

/-- A concrete `mail.send` job for the DLQ-variant worker. -/
def witnessDlqJob : DlqJob :=
  { id := "42", name := "mail.send", data := witnessPayload }

/-- A concrete unmatched job for the DLQ-variant worker. -/
def witnessDlqNotifyJob : DlqJob :=
  { id := "43", name := "mail.notify", data := witnessPayload }

/-- C9: in the DLQ variant, a job whose name is not `mail.send` falls
through the dispatch `if` untouched: no event at all is emitted (no handler
body, no log, no DLQ enqueue) and `process` returns normally, completing
the job. -/
theorem dlq_unmatched_job_noop (sendOutcome : Except JsError Unit)
    (job : DlqJob) (hname : job.name ≠ MailJobNames.MAIL_SEND) :
    DlqMailProcessor.process sendOutcome job = ([], .ok ()) := by
  simp [DlqMailProcessor.process, hname]

/-- Witness for C9 at a concrete `mail.notify` job. -/
theorem dlq_unmatched_job_noop_witness :
    DlqMailProcessor.process (.ok ()) witnessDlqNotifyJob = ([], .ok ()) :=
  dlq_unmatched_job_noop (.ok ()) witnessDlqNotifyJob (by decide)

/-- The DLQ record the escalation path enqueues for a failed job: original
name, original payload, and the options `attempts: 0, failedReason:
err.message`. -/
def dlqRecordFor (job : DlqJob) (err : JsError) : DlqRecord :=
  { name := job.name
    data := job.data
    opts := { attempts := 0, failedReason := err.message } }

/-- The full event trace of the DLQ-variant worker on a failed `mail.send`
job, in program order. -/
def dlqFailTrace (job : DlqJob) (err : JsError) : List DlqEvent :=
  [.consoleLog ("Sending mail to " ++ jsShow (jsGet job.data "to")
      ++ " with subject \"" ++ jsShow (jsGet job.data "subject") ++ "\""),
   .consoleError ("Job failed: " ++ job.id ++ " " ++ err.message),
   .dlqEnqueued (dlqRecordFor job err),
   .raised err]

lemma dlq_process_fail_eq (job : DlqJob) (err : JsError)
    (hname : job.name = MailJobNames.MAIL_SEND) :
    DlqMailProcessor.process (.error err) job =
      (dlqFailTrace job err, .error err) := by
  simp [DlqMailProcessor.process, dlqFailTrace, dlqRecordFor, hname]

lemma dlqRecordsOf_dlqFailTrace (job : DlqJob) (err : JsError) :
    dlqRecordsOf (dlqFailTrace job err) = [dlqRecordFor job err] := rfl

/-- C3: in the DLQ variant, when the send of a `mail.send` job fails with
`err`, the worker enqueues exactly one DLQ record with retry disabled
(`attempts: 0`) and then re-raises the very same error, so the process
call terminates with `Except.error err` and the primary queue's
retry/backoff policy governs reattempts. -/
theorem dlq_failure_reraised (job : DlqJob) (err : JsError)
    (hname : job.name = MailJobNames.MAIL_SEND) :
    ∃ evs, DlqMailProcessor.process (.error err) job = (evs, .error err) ∧
      dlqRecordsOf evs = [dlqRecordFor job err] ∧
      (dlqRecordFor job err).opts.attempts = 0 :=
  ⟨dlqFailTrace job err, dlq_process_fail_eq job err hname,
    dlqRecordsOf_dlqFailTrace job err, rfl⟩

/-- Witness for C3 at a concrete job and the error `Error('boom')`. -/
theorem dlq_failure_reraised_witness :
    ∃ evs, DlqMailProcessor.process (.error { message := "boom" })
        witnessDlqJob = (evs, .error { message := "boom" }) ∧
      dlqRecordsOf evs =
        [dlqRecordFor witnessDlqJob { message := "boom" }] ∧
      (dlqRecordFor witnessDlqJob { message := "boom" }).opts.attempts = 0 :=
  dlq_failure_reraised witnessDlqJob { message := "boom" } rfl

/-- Counterexample for C1 as stated: on a concrete `mail.send` job whose
send throws `Error('boom')`, exactly one DLQ record is enqueued, but its
payload is the original mail payload unchanged — it has no `failedReason`
field, so `payload.failedReason` is `undefined` (`none`), not `'boom'`.
The failure reason lives in the DLQ add's options instead. -/
theorem dlq_payload_failedReason_refuted :
    dlqRecordsOf (DlqMailProcessor.process (.error { message := "boom" })
        witnessDlqJob).1 =
      [dlqRecordFor witnessDlqJob { message := "boom" }] ∧
    ∀ r ∈ dlqRecordsOf (DlqMailProcessor.process
        (.error { message := "boom" }) witnessDlqJob).1,
      jsGet r.data "failedReason" = none ∧
      jsGet r.data "failedReason" ≠ some "boom" := by
  refine ⟨rfl, fun r hr => ?_⟩
  have hr' : r = dlqRecordFor witnessDlqJob { message := "boom" } := by
    rw [show dlqRecordsOf (DlqMailProcessor.process
        (.error { message := "boom" }) witnessDlqJob).1 =
      [dlqRecordFor witnessDlqJob { message := "boom" }] from rfl,
      List.mem_singleton] at hr
    exact hr
  rw [hr']
  exact ⟨rfl, by decide⟩

/-- C1 (amended): in the DLQ variant, for every send failure on a
`mail.send` job, exactly one corresponding DLQ record is enqueued, carrying
the original job's name, the original payload unchanged, and the failure
reason (the thrown error's message, non-empty whenever that message is) in
the DLQ add's options metadata rather than in the payload; and the DLQ
enqueue occurs strictly before the attempt is reported failed (the
re-raise). -/
theorem dlq_escalation_invariant (job : DlqJob) (err : JsError)
    (hname : job.name = MailJobNames.MAIL_SEND) (hmsg : err.message ≠ "") :
    (DlqMailProcessor.process (.error err) job).2 = .error err ∧
    dlqRecordsOf (DlqMailProcessor.process (.error err) job).1 =
      [dlqRecordFor job err] ∧
    (dlqRecordFor job err).name = job.name ∧
    (dlqRecordFor job err).data = job.data ∧
    (dlqRecordFor job err).opts.failedReason = err.message ∧
    (dlqRecordFor job err).opts.failedReason ≠ "" ∧
    ∃ i j : Nat, i < j ∧
      (DlqMailProcessor.process (.error err) job).1[i]? =
        some (.dlqEnqueued (dlqRecordFor job err)) ∧
      (DlqMailProcessor.process (.error err) job).1[j]? =
        some (.raised err) := by
  rw [dlq_process_fail_eq job err hname]
  exact ⟨rfl, rfl, rfl, rfl, rfl, hmsg, 2, 3, by norm_num, rfl, rfl⟩

/-- Witness for C1 (amended) at a concrete job and `Error('boom')`. -/
theorem dlq_escalation_invariant_witness :
    (DlqMailProcessor.process (.error { message := "boom" })
        witnessDlqJob).2 = .error { message := "boom" } ∧
    dlqRecordsOf (DlqMailProcessor.process (.error { message := "boom" })
        witnessDlqJob).1 =
      [dlqRecordFor witnessDlqJob { message := "boom" }] ∧
    (dlqRecordFor witnessDlqJob { message := "boom" }).name =
      witnessDlqJob.name ∧
    (dlqRecordFor witnessDlqJob { message := "boom" }).data =
      witnessDlqJob.data ∧
    (dlqRecordFor witnessDlqJob { message := "boom" }).opts.failedReason =
      (JsError.mk "boom").message ∧
    (dlqRecordFor witnessDlqJob { message := "boom" }).opts.failedReason
      ≠ "" ∧
    ∃ i j : Nat, i < j ∧
      (DlqMailProcessor.process (.error { message := "boom" })
          witnessDlqJob).1[i]? =
        some (.dlqEnqueued (dlqRecordFor witnessDlqJob
          { message := "boom" })) ∧
      (DlqMailProcessor.process (.error { message := "boom" })
          witnessDlqJob).1[j]? =
        some (.raised { message := "boom" }) :=
  dlq_escalation_invariant witnessDlqJob { message := "boom" } rfl
    (by decide)

/-- Invariant preserved by the broker retry relation: the attempt count
never exceeds the budget, consecutive attempts respect the backoff, and a
job still waiting always has budget left. -/
def retryInv (cfg : RetryConfig) (s : RetryState) : Prop :=
  s.attemptTimes.length ≤ cfg.attempts ∧
  attemptsSeparated cfg.backoff s.attemptTimes ∧
  (s.status = .waiting → s.attemptTimes.length < cfg.attempts)

lemma attemptsSeparated_append (b : Nat) (l : List Nat) (t : Nat)
    (hc : attemptsSeparated b l) (hlast : ∀ x ∈ l.getLast?, x + b ≤ t) :
    attemptsSeparated b (l ++ [t]) := by
  rw [attemptsSeparated, List.chain'_append]
  exact ⟨hc, List.chain'_singleton t,
    fun x hx y hy => by
      rw [List.head?_cons, Option.mem_def, Option.some_inj] at hy
      subst hy
      exact hlast x hx⟩

lemma readyTime_le_imp (cfg : RetryConfig) (s : RetryState) (t : Nat)
    (ht : readyTime cfg s ≤ t) :
    ∀ x ∈ s.attemptTimes.getLast?, x + cfg.backoff ≤ t := by
  intro x hx
  rw [Option.mem_def] at hx
  rw [readyTime, hx] at ht
  exact ht

lemma retryInv_init (cfg : RetryConfig) (hpos : 0 < cfg.attempts) :
    retryInv cfg initialRetryState :=
  ⟨Nat.zero_le _, List.chain'_nil, fun _ => hpos⟩

lemma retryInv_step (cfg : RetryConfig) {s s' : RetryState}
    (hs : retryInv cfg s) (hstep : RetryStep cfg s s') : retryInv cfg s' := by
  obtain ⟨_, hsep, _⟩ := hs
  cases hstep with
  | succeed t hw hb ht =>
    refine ⟨?_, ?_, ?_⟩
    · simpa using hb
    · exact attemptsSeparated_append cfg.backoff s.attemptTimes t hsep
        (readyTime_le_imp cfg s t ht)
    · intro h
      exact absurd h (by simp)
  | fail t hw hb ht =>
    refine ⟨?_, ?_, ?_⟩
    · simpa using hb
    · exact attemptsSeparated_append cfg.backoff s.attemptTimes t hsep
        (readyTime_le_imp cfg s t ht)
    · intro h
      by_cases hfull : s.attemptTimes.length + 1 = cfg.attempts
      · rw [if_pos hfull] at h
        exact absurd h (by simp)
      · simp only [List.length_append, List.length_singleton]
        omega

lemma retryInv_reachable (cfg : RetryConfig) (hpos : 0 < cfg.attempts)
    (s : RetryState) (h : RetryReachable cfg s) : retryInv cfg s := by
  induction h with
  | refl => exact retryInv_init cfg hpos
  | tail hr hstep ih => exact retryInv_step cfg ih hstep

/-- C6: under the DLQ guide's `mail` queue policy (`attempts = 3`,
`backoff = 5000` ms), every reachable broker state of a job shows at most 3
attempts (so a 4th attempt is impossible), consecutive attempts separated
by at least the backoff delay, and — once the third attempt has happened —
a status of completed or finally failed. -/
theorem mail_retry_bound (s : RetryState)
    (h : RetryReachable mailRetryConfig s) :
    s.attemptTimes.length ≤ 3 ∧
    attemptsSeparated 5000 s.attemptTimes ∧
    (s.attemptTimes.length = 3 →
      s.status = .completed ∨ s.status = .failed) := by
  obtain ⟨h1, h2, h3⟩ := retryInv_reachable mailRetryConfig (by decide) s h
  refine ⟨h1, h2, fun hlen => ?_⟩
  cases hst : s.status with
  | waiting =>
    have h4 : s.attemptTimes.length < 3 := h3 hst
    omega
  | completed => exact Or.inl rfl
  | failed => exact Or.inr rfl

/-- Witness for C6 at the state reached by one successful attempt at time
7: one attempt, trivially separated, not yet at the attempt bound. -/
theorem mail_retry_bound_witness :
    (RetryState.mk [7] .completed).attemptTimes.length ≤ 3 ∧
    attemptsSeparated 5000 (RetryState.mk [7] .completed).attemptTimes ∧
    ((RetryState.mk [7] .completed).attemptTimes.length = 3 →
      (RetryState.mk [7] .completed).status = .completed ∨
      (RetryState.mk [7] .completed).status = .failed) :=
  mail_retry_bound (RetryState.mk [7] .completed)
    (Relation.ReflTransGen.single
      (RetryStep.succeed initialRetryState 7 rfl (by decide) (by decide)))
